import Mathlib

/-!
Verification of the canvas geometry utilities and the bounded-concurrency
batch runner of this repository.

The embedding below models:
* `resizeImageToAspectRatio` (src/lib/utils.ts, lines 19-92): ratio-string
  parsing and validation, the tolerance no-op, letterbox/pillarbox dimension
  computation, the 1024px cap, and JPEG re-encode of the result.
* `cropImageToAspectRatio` (src/lib/utils.ts, lines 100-157): center crop.
* `createPrintSheet` (src/unnamed/part_008): grid layout and draw sequence.
* the worker-pool batch runner of `handleGenerateClick`
  (src/components/Photoshoot.tsx, lines 541-590) and `handleGenerateAll`
  (src/unnamed/part_003, lines 117-142), plus `handleRegeneratePhoto`
  (src/components/Photoshoot.tsx, lines 592-624).

JavaScript numbers are modelled as exact rationals wherever every value on
the executed path is finite; the NaN/Infinity behaviour of the ratio-string
validation (where it is observable) is modelled separately by `JSNum`.
-/

namespace CreativeSuite

/-! ### A model of JavaScript numbers for the ratio-string parser

`resizeImageToAspectRatio` parses its ratio argument with
`aspectRatio.split(':').map(Number)` and validates with
`isNaN(wRatio) || isNaN(hRatio) || hRatio === 0`.  NaN and the signed
infinities are observable on this path, so we model them explicitly. -/

/-- A JavaScript number: NaN, a signed infinity, or a finite value
(idealised as an exact rational). -/
inductive JSNum where
  | nan
  | posInf
  | negInf
  | finite (q : ℚ)
deriving DecidableEq, Repr

/-- JS `isNaN` on an already-numeric value. -/
def JSNum.isNaN : JSNum → Bool
  | .nan => true
  | _ => false

/-- The finite value of a `JSNum`, junk (0) on NaN/infinities.  Used only
after validation has ruled the non-finite cases out. -/
def JSNum.toRat : JSNum → ℚ
  | .finite q => q
  | _ => 0

/-- JavaScript division.  A nonzero finite value divided by zero yields a
signed infinity; `0 / 0` yields NaN.  (ECMA-262 Number::divide; the rational
model has no signed zero, which only JS `-0` denominators would need.) -/
def jsDiv : JSNum → JSNum → JSNum
  | .nan, _ => .nan
  | _, .nan => .nan
  | .finite a, .finite b =>
      if b = 0 then
        if a = 0 then .nan
        else if 0 < a then .posInf else .negInf
      else .finite (a / b)
  | .finite _, .posInf => .finite 0
  | .finite _, .negInf => .finite 0
  | .posInf, .finite b => if 0 ≤ b then .posInf else .negInf
  | .negInf, .finite b => if 0 ≤ b then .negInf else .posInf
  | .posInf, .posInf => .nan
  | .posInf, .negInf => .nan
  | .negInf, .posInf => .nan
  | .negInf, .negInf => .nan

/-- `String.prototype.split(':')`: cut a character list at every `':'`. -/
def splitColonAux : List Char → List Char → List (List Char)
  | [], acc => [acc.reverse]
  | c :: rest, acc =>
    if c = ':' then acc.reverse :: splitColonAux rest []
    else splitColonAux rest (c :: acc)

/-- Numeric value of a decimal digit string. -/
def digitsVal (l : List Char) : ℕ :=
  l.foldl (fun a c => 10 * a + (c.toNat - 48)) 0

/-- JS `Number(string)` restricted to the strings this code path meets:
the empty string converts to `0`, an (optionally `-`-signed) decimal digit
string to its value, and anything else to NaN.  (Fractional, hex and
whitespace-padded literals never occur in the repository's ratio strings.) -/
def jsNumberOfChars (l : List Char) : JSNum :=
  if l = [] then .finite 0
  else if l.all Char.isDigit then .finite (digitsVal l)
  else
    match l with
    | '-' :: rest =>
        if rest.isEmpty then .nan
        else if rest.all Char.isDigit then .finite (-(digitsVal rest : ℚ))
        else .nan
    | _ => .nan

/-- `aspectRatio.split(':').map(Number)` (src/lib/utils.ts, line 24). -/
def splitRatio (s : String) : List JSNum :=
  (splitColonAux s.data []).map jsNumberOfChars

/-- The validation of src/lib/utils.ts lines 24-28: destructure the first
two parsed components (a missing component is `undefined`, which `isNaN`
treats exactly like NaN and which is never `=== 0`, so `.nan` is a faithful
default) and reject when either is NaN or the height component is zero;
otherwise the target ratio is `wRatio / hRatio`. -/
def resizeValidate (ratio : String) : Option JSNum :=
  let parts := splitRatio ratio
  let wRatio := parts.getD 0 .nan
  let hRatio := parts.getD 1 .nan
  if wRatio.isNaN = true ∨ hRatio.isNaN = true ∨ hRatio = .finite 0 then none
  else some (jsDiv wRatio hRatio)

/-! ### resizeImageToAspectRatio (letterbox / pillarbox padding) -/

/-- JS `Math.round`: round half away from zero towards positive infinity,
i.e. `⌊x + 1/2⌋`. -/
def jsRound (x : ℚ) : ℤ := ⌊x + 1 / 2⌋

/-- Result of `resizeImageToAspectRatio`: either the untouched input data
URL (the tolerance no-op of line 43-46), or a freshly encoded JPEG with the
final canvas dimensions and the scaled source-draw dimensions. -/
inductive ResizeResult where
  | unchanged (dataUrl : String)
  | jpeg (width height imgWidth imgHeight : ℤ)
deriving DecidableEq, Repr

/-- The local `canvasWidth` of src/lib/utils.ts lines 48-57: the original
width, replaced by `origHeight * targetRatio` in the pillarbox branch. -/
def canvasWidth (targetRatio : ℚ) (origWidth origHeight : ℕ) : ℚ :=
  if targetRatio > (origWidth : ℚ) / origHeight then origHeight * targetRatio
  else origWidth

/-- The local `canvasHeight` of src/lib/utils.ts lines 48-57: the original
height, replaced by `origWidth / targetRatio` in the letterbox branch. -/
def canvasHeight (targetRatio : ℚ) (origWidth origHeight : ℕ) : ℚ :=
  if targetRatio > (origWidth : ℚ) / origHeight then origHeight
  else (origWidth : ℚ) / targetRatio

/-- The local `scale` of src/lib/utils.ts lines 59-67: 1, unless the grown
canvas exceeds `MAX_DIMENSION = 1024` on either side, in which case the
long side is scaled down to exactly 1024. -/
def resizeScale (targetRatio : ℚ) (origWidth origHeight : ℕ) : ℚ :=
  if canvasWidth targetRatio origWidth origHeight > 1024 ∨
      canvasHeight targetRatio origWidth origHeight > 1024 then
    if canvasWidth targetRatio origWidth origHeight >
        canvasHeight targetRatio origWidth origHeight then
      1024 / canvasWidth targetRatio origWidth origHeight
    else 1024 / canvasHeight targetRatio origWidth origHeight
  else 1

/-- The `img.onload` body of `resizeImageToAspectRatio`
(src/lib/utils.ts, lines 38-87), given the already-parsed target ratio and
the decoded source dimensions.  JS numbers are idealised as exact
rationals; this is faithful whenever the target ratio is positive — the
zero-ratio path, where JS produces `Infinity` at line 56, is treated by
`jsDiv` (see the theorem for claim C10). -/
def resizeBody (dataUrl : String) (targetRatio : ℚ) (origWidth origHeight : ℕ) :
    ResizeResult :=
  if |targetRatio - (origWidth : ℚ) / origHeight| < 1 / 100 then
    .unchanged dataUrl
  else
    .jpeg
      (jsRound (canvasWidth targetRatio origWidth origHeight *
        resizeScale targetRatio origWidth origHeight))
      (jsRound (canvasHeight targetRatio origWidth origHeight *
        resizeScale targetRatio origWidth origHeight))
      (jsRound (origWidth * resizeScale targetRatio origWidth origHeight))
      (jsRound (origHeight * resizeScale targetRatio origWidth origHeight))

/-- `resizeImageToAspectRatio` (src/lib/utils.ts, lines 19-92).  The
asynchronous image decode is abstracted to the provided source dimensions;
decode failure (the `onerror` reject) is outside all claims. -/
def resizeImageToAspectRatio (dataUrl ratio : String) (origWidth origHeight : ℕ) :
    Except String ResizeResult :=
  match resizeValidate ratio with
  | none => .error "Invalid aspect ratio format"
  | some t => .ok (resizeBody dataUrl t.toRat origWidth origHeight)

/-! ### cropImageToAspectRatio (center crop) -/

/-- The crop rectangle and output canvas computed by
`cropImageToAspectRatio`: the output canvas is `cropWidth × cropHeight`
and the source rectangle starts at `(cropX, cropY)`. -/
structure CropResult where
  cropWidth : ℚ
  cropHeight : ℚ
  cropX : ℚ
  cropY : ℚ
deriving DecidableEq, Repr

/-- `cropImageToAspectRatio` (src/lib/utils.ts, lines 100-157), given the
decoded source dimensions and the numeric target ratio. -/
def cropImageToAspectRatio (origWidth origHeight : ℕ) (targetRatio : ℚ) :
    CropResult :=
  let origRatio : ℚ := origWidth / origHeight
  if origRatio > targetRatio then
    { cropHeight := origHeight
      cropWidth := origHeight * targetRatio
      cropX := ((origWidth : ℚ) - origHeight * targetRatio) / 2
      cropY := 0 }
  else
    { cropWidth := origWidth
      cropHeight := origWidth / targetRatio
      cropX := 0
      cropY := ((origHeight : ℚ) - origWidth / targetRatio) / 2 }

/-! ### createPrintSheet (4x6 inch print-sheet tiling, src/unnamed/part_008) -/

/-- The grid placement computed by `createPrintSheet`:
`cols = floor((paperWidth - padding) / (cellWidth + padding))`, `rows`
analogous, the total grid extent, and the centered top-left corner. -/
structure GridLayout where
  cols : ℤ
  rows : ℤ
  totalGridWidth : ℚ
  totalGridHeight : ℚ
  startX : ℚ
  startY : ℚ
deriving DecidableEq, Repr

/-- The grid-layout arithmetic of `createPrintSheet`
(src/unnamed/part_008, lines 55-68), over general paper, cell and padding
sizes in pixels. -/
def printGridLayout (paperW paperH cellW cellH padding : ℚ) : GridLayout :=
  let cols : ℤ := ⌊(paperW - padding) / (cellW + padding)⌋
  let rows : ℤ := ⌊(paperH - padding) / (cellH + padding)⌋
  let gw : ℚ := cols * cellW + (cols - 1) * padding
  let gh : ℚ := rows * cellH + (rows - 1) * padding
  { cols := cols
    rows := rows
    totalGridWidth := gw
    totalGridHeight := gh
    startX := (paperW - gw) / 2
    startY := (paperH - gh) / 2 }

/-- A drawing operation performed on the print-sheet canvas, in program
order: the initial white background `fillRect`, or one `drawImage` of the
portrait tile at grid position `(row, col)`. -/
inductive DrawOp where
  | fillBackground
  | drawTile (row col : ℕ) (x y : ℚ)
deriving DecidableEq, Repr

/-- `CM_TO_INCH * DPI` applied to a size in centimeters: `1 / 2.54` times
300 (src/unnamed/part_008, lines 29-38). -/
def cmToPx (cm : ℚ) : ℚ := cm * (1 / (254 / 100)) * 300

/-- The 0.1 cm padding between photos, in pixels (line 56). -/
def sheetPadding : ℚ := cmToPx (1 / 10)

/-- The grid layout `createPrintSheet` computes for its fixed 4x6 inch
paper at 300 DPI (1200 x 1800 px) and a cell size in centimeters. -/
def printSheetLayout (cellWidthCm cellHeightCm : ℚ) : GridLayout :=
  printGridLayout (4 * 300) (6 * 300) (cmToPx cellWidthCm) (cmToPx cellHeightCm)
    sheetPadding

/-- `createPrintSheet` (src/unnamed/part_008, lines 24-81): fixed 4x6 inch
paper at 300 DPI, cell size given in centimeters, padding 0.1 cm.  Returns
the ordered list of draw operations executed on the canvas together with
the result: the capacity error thrown when `cols === 0 || rows === 0`, or
the computed layout.  The white background fill (line 51) executes before
the capacity check; the image decode (`loadImage`) is abstracted as
successful. -/
def createPrintSheet (cellWidthCm cellHeightCm : ℚ) :
    List DrawOp × Except String GridLayout :=
  if (printSheetLayout cellWidthCm cellHeightCm).cols = 0 ∨
      (printSheetLayout cellWidthCm cellHeightCm).rows = 0 then
    ([.fillBackground], .error "Portrait size is too large to fit on a 4x6 inch paper.")
  else
    (.fillBackground ::
      (List.range (printSheetLayout cellWidthCm cellHeightCm).rows.toNat).flatMap
        (fun row =>
          (List.range (printSheetLayout cellWidthCm cellHeightCm).cols.toNat).map
            (fun col =>
              .drawTile row col
                ((printSheetLayout cellWidthCm cellHeightCm).startX +
                  col * (cmToPx cellWidthCm + sheetPadding))
                ((printSheetLayout cellWidthCm cellHeightCm).startY +
                  row * (cmToPx cellHeightCm + sheetPadding)))),
      .ok (printSheetLayout cellWidthCm cellHeightCm))

/-! ### The bounded-concurrency batch runner

`handleGenerateClick` (src/components/Photoshoot.tsx, lines 541-590)
initialises every selected job to `pending`, copies the job list into a
shared queue, and spawns `concurrencyLimit` identical async workers; each
worker repeatedly checks the queue, `shift`s the next id, and awaits that
job's work (`processStyle`) to completion — recording `done`/`error` in the
shared job map — before looping; it exits its loop when the queue is empty.
`handleGenerateAll` (src/unnamed/part_003, lines 117-142) is the same
runner with `concurrencyLimit = 3` and `handleGenerateSingle` as the work.

Because JavaScript is single-threaded, every synchronous run between two
`await`s is atomic; the only suspension point of a worker is the await on
its current job.  The model below is a small-step transition system whose
three steps are exactly these atomic runs. -/

/-- Status of one job in the shared map (`GeneratedImage` /
`GeneratedImageState` in the source): `pending`, or terminal with a result
url or an error message. -/
inductive JobState where
  | pending
  | done (url : String)
  | error (msg : String)
deriving DecidableEq, Repr

/-- Whether a job status is terminal. -/
def JobState.isTerminal : JobState → Bool
  | .pending => false
  | .done _ => true
  | .error _ => true

/-- How `processStyle` / `handleGenerateSingle` record the settled work
promise: resolution becomes `done` with the url, rejection is caught and
becomes `error` with the message. -/
def applyOutcome : Except String String → JobState
  | .ok url => .done url
  | .error msg => .error msg

/-- Where one spawned worker stands: at the top of its `while` loop,
suspended awaiting the work of job `id`, or exited. -/
inductive WorkerState where
  | looping
  | awaiting (id : String)
  | exited
deriving DecidableEq, Repr

/-- The shared state of one batch run: the work queue, the job map
(`generatedImages`; ids absent from the map are `none`), and the spawned
workers. -/
structure RunnerState where
  queue : List String
  images : String → Option JobState
  workers : List WorkerState

/-- The spread-update `{ ...prev, [id]: st }` on the job map. -/
def setImage (g : String → Option JobState) (id : String) (st : JobState) :
    String → Option JobState :=
  fun k => if k = id then some st else g k

/-- One atomic step of the batch run, parameterised by the outcome each
job's work function settles with.  `start`: a worker at its loop head finds
the queue non-empty, shifts the head and suspends on its work.  `finish`:
an awaited work promise settles and the worker records the outcome and
returns to its loop head.  `exitLoop`: a worker at its loop head finds the
queue empty and exits. -/
inductive RunnerStep (outcome : String → Except String String) :
    RunnerState → RunnerState → Prop where
  | start (s : RunnerState) (i : ℕ) (id : String) (rest : List String)
      (hw : s.workers[i]? = some .looping) (hq : s.queue = id :: rest) :
      RunnerStep outcome s ⟨rest, s.images, s.workers.set i (.awaiting id)⟩
  | finish (s : RunnerState) (i : ℕ) (id : String)
      (hw : s.workers[i]? = some (.awaiting id)) :
      RunnerStep outcome s
        ⟨s.queue, setImage s.images id (applyOutcome (outcome id)),
          s.workers.set i .looping⟩
  | exitLoop (s : RunnerState) (i : ℕ)
      (hw : s.workers[i]? = some .looping) (hq : s.queue = []) :
      RunnerStep outcome s ⟨[], s.images, s.workers.set i .exited⟩

/-- The state handed to the workers by `handleGenerateClick` /
`handleGenerateAll`: every submitted job `pending`, the queue a copy of the
job list, `c` workers at their loop heads. -/
def initRunner (ids : List String) (c : ℕ) : RunnerState :=
  { queue := ids
    images := fun k => if k ∈ ids then some .pending else none
    workers := List.replicate c .looping }

/-- States the batch run can be in, from submission onwards. -/
def Reachable (outcome : String → Except String String)
    (ids : List String) (c : ℕ) (s : RunnerState) : Prop :=
  Relation.ReflTransGen (RunnerStep outcome) (initRunner ids c) s

/-- The batch run has completed: all spawned workers have exited their
loop (the `await Promise.all(workers)` join). -/
def Completed (s : RunnerState) : Prop :=
  ∀ (i : ℕ) (w : WorkerState), s.workers[i]? = some w → w = WorkerState.exited

/-- Number of work functions in flight: workers suspended on a job. -/
def inFlight (s : RunnerState) : ℕ :=
  (s.workers.filterMap fun w =>
    match w with
    | .awaiting id => some id
    | _ => none).length

/-- `handleRegeneratePhoto` (src/components/Photoshoot.tsx, lines
592-624): a no-op when the job is already `pending` (the guard on line
593), otherwise the job is set to `pending` and then, when its single ad
hoc re-execution settles with `outcome`, to the corresponding terminal
state.  Returns the successive values of the job map.  (The
`!uploadedImage` and style-lookup guards are abstracted: a batch job id
always names a style of `ALL_PHOTO_STYLES`, which both the job map and the
lookup derive from.) -/
def handleRegeneratePhoto (images : String → Option JobState)
    (photoId : String) (outcome : Except String String) :
    List (String → Option JobState) :=
  match images photoId with
  | some .pending => [images]
  | _ =>
    let afterPending := setImage images photoId .pending
    [afterPending, setImage afterPending photoId (applyOutcome outcome)]

/-! ### Rounding helpers -/

theorem jsRound_sub_abs_le (x : ℚ) : |(jsRound x : ℚ) - x| ≤ 1 / 2 := by
  unfold jsRound
  have h1 : ((⌊x + 1 / 2⌋ : ℤ) : ℚ) ≤ x + 1 / 2 := Int.floor_le _
  have h2 : x + 1 / 2 - 1 < ((⌊x + 1 / 2⌋ : ℤ) : ℚ) := Int.sub_one_lt_floor _
  rw [abs_le]
  constructor <;> linarith

theorem jsRound_le_of_le (x : ℚ) (n : ℤ) (h : x ≤ n) : jsRound x ≤ n := by
  unfold jsRound
  have : x + 1 / 2 < (n : ℚ) + 1 := by linarith
  exact Int.le_of_lt_add_one (by rwa [Int.floor_lt, Int.cast_add, Int.cast_one])

/-! ### Claim C4: the tolerance no-op of resizeImageToAspectRatio -/

/-- C4: for every source image whose own width/height ratio differs from
the parsed target ratio by strictly less than 0.01,
`resizeImageToAspectRatio` returns the original input data URL unchanged —
no padding, no recompression — so callers can detect non-modification by
comparing the returned value to the input. -/
theorem resize_tolerance_noop (dataUrl ratio : String) (origW origH : ℕ) (t : ℚ)
    (hv : resizeValidate ratio = some (.finite t))
    (htol : |t - (origW : ℚ) / origH| < 1 / 100) :
    resizeImageToAspectRatio dataUrl ratio origW origH = .ok (.unchanged dataUrl) := by
  unfold resizeImageToAspectRatio
  rw [hv]
  show Except.ok (resizeBody dataUrl t origW origH) = _
  unfold resizeBody
  rw [if_pos htol]

/-- Witness for C4 at the concrete input `"1:1"` on a 100 x 100 source. -/
theorem resize_tolerance_noop_witness :
    resizeImageToAspectRatio "data" "1:1" 100 100 = .ok (.unchanged "data") :=
  resize_tolerance_noop "data" "1:1" 100 100 1
    (by simp [resizeValidate, splitRatio, splitColonAux, jsNumberOfChars,
      digitsVal, JSNum.isNaN, jsDiv])
    (by norm_num)

/-! ### Claim C10: zero-width ratios bypass the format validation -/

/-- C10: the validation of `resizeImageToAspectRatio` rejects exactly the
NaN-component and zero-height cases, so the ratio string `"0:4"` (and a
negative component) passes validation with target ratio `0`; for an
off-tolerance source (e.g. 100 x 100) the comparison `targetRatio >
origRatio` then fails, the letterbox branch is taken, and line 56 computes
`origWidth / 0`, which in JavaScript is `Infinity` — the format-error
branch is never reached even though the data model calls for a pair of
positive integers. -/
theorem zero_width_ratio_bypasses_validation :
    resizeValidate "0:4" = some (.finite 0) ∧
    resizeValidate "-3:4" = some (.finite (-(3 / 4))) ∧
    resizeValidate "x:4" = none ∧
    resizeValidate "4:0" = none ∧
    resizeValidate "4:y" = none ∧
    (∃ r, resizeImageToAspectRatio "data" "0:4" 100 100 = .ok r) ∧
    ¬ ((0 : ℚ) > (100 : ℚ) / 100) ∧
    ¬ |(0 : ℚ) - (100 : ℚ) / 100| < 1 / 100 ∧
    jsDiv (.finite 100) (.finite 0) = .posInf := by
  have hval : resizeValidate "0:4" = some (.finite 0) := by
    simp [resizeValidate, splitRatio, splitColonAux, jsNumberOfChars, digitsVal,
      JSNum.isNaN, jsDiv]
  refine ⟨hval, ?_, ?_, ?_, ?_, ?_, by norm_num, by rw [abs_sub_comm]; norm_num,
    by decide⟩
  · simp [resizeValidate, splitRatio, splitColonAux, jsNumberOfChars, digitsVal,
      JSNum.isNaN, jsDiv]
    norm_num
  · simp [resizeValidate, splitRatio, splitColonAux, jsNumberOfChars, digitsVal,
      JSNum.isNaN, jsDiv]
  · simp [resizeValidate, splitRatio, splitColonAux, jsNumberOfChars, digitsVal,
      JSNum.isNaN, jsDiv]
  · simp [resizeValidate, splitRatio, splitColonAux, jsNumberOfChars, digitsVal,
      JSNum.isNaN, jsDiv]
  · refine ⟨resizeBody "data" (JSNum.finite 0).toRat 100 100, ?_⟩
    unfold resizeImageToAspectRatio
    rw [hval]

/-! ### Claim C5: off-tolerance output dimensions of resizeImageToAspectRatio -/

theorem canvas_ratio_exact (origW origH : ℕ) (t : ℚ)
    (hw : 1 ≤ origW) (hh : 1 ≤ origH) (ht : 0 < t) :
    canvasWidth t origW origH / canvasHeight t origW origH = t ∧
    0 < canvasWidth t origW origH ∧ 0 < canvasHeight t origW origH := by
  have hW : (0 : ℚ) < origW := by exact_mod_cast Nat.lt_of_lt_of_le Nat.zero_lt_one hw
  have hH : (0 : ℚ) < origH := by exact_mod_cast Nat.lt_of_lt_of_le Nat.zero_lt_one hh
  unfold canvasWidth canvasHeight
  by_cases hbr : t > (origW : ℚ) / origH
  · rw [if_pos hbr, if_pos hbr]
    exact ⟨by field_simp, mul_pos hH ht, hH⟩
  · rw [if_neg hbr, if_neg hbr]
    exact ⟨by field_simp, hW, div_pos hW ht⟩

theorem resizeScale_pos (origW origH : ℕ) (t : ℚ)
    (hw : 1 ≤ origW) (hh : 1 ≤ origH) (ht : 0 < t) :
    0 < resizeScale t origW origH := by
  obtain ⟨-, hcw, hch⟩ := canvas_ratio_exact origW origH t hw hh ht
  unfold resizeScale
  by_cases hmax : canvasWidth t origW origH > 1024 ∨ canvasHeight t origW origH > 1024
  · rw [if_pos hmax]
    by_cases hwc : canvasWidth t origW origH > canvasHeight t origW origH
    · rw [if_pos hwc]; positivity
    · rw [if_neg hwc]; positivity
  · rw [if_neg hmax]; norm_num

theorem canvas_scaled_le (origW origH : ℕ) (t : ℚ)
    (hw : 1 ≤ origW) (hh : 1 ≤ origH) (ht : 0 < t) :
    canvasWidth t origW origH * resizeScale t origW origH ≤ 1024 ∧
    canvasHeight t origW origH * resizeScale t origW origH ≤ 1024 := by
  obtain ⟨-, hcw, hch⟩ := canvas_ratio_exact origW origH t hw hh ht
  unfold resizeScale
  by_cases hmax : canvasWidth t origW origH > 1024 ∨ canvasHeight t origW origH > 1024
  · rw [if_pos hmax]
    by_cases hwc : canvasWidth t origW origH > canvasHeight t origW origH
    · rw [if_pos hwc]
      have he : canvasWidth t origW origH * (1024 / canvasWidth t origW origH) = 1024 := by
        field_simp
      refine ⟨le_of_eq he, ?_⟩
      calc canvasHeight t origW origH * (1024 / canvasWidth t origW origH)
          ≤ canvasWidth t origW origH * (1024 / canvasWidth t origW origH) :=
            mul_le_mul_of_nonneg_right (le_of_lt hwc) (by positivity)
        _ = 1024 := he
    · rw [if_neg hwc]
      have hle : canvasWidth t origW origH ≤ canvasHeight t origW origH :=
        le_of_not_lt hwc
      have he : canvasHeight t origW origH * (1024 / canvasHeight t origW origH) = 1024 := by
        field_simp
      refine ⟨?_, le_of_eq he⟩
      calc canvasWidth t origW origH * (1024 / canvasHeight t origW origH)
          ≤ canvasHeight t origW origH * (1024 / canvasHeight t origW origH) :=
            mul_le_mul_of_nonneg_right hle (by positivity)
        _ = 1024 := he
  · rw [if_neg hmax]
    push_neg at hmax
    simpa using hmax

/-- C5: for every source image and parsed positive target ratio outside
the 0.01 tolerance, `resizeImageToAspectRatio` produces a re-encoded JPEG
whose dimensions are within one pixel (in fact within half a pixel of
rounding) of an exact-ratio pair `a / b = t`, and neither output dimension
exceeds the 1024 px maximum. -/
theorem resize_offtolerance_dims (dataUrl ratio : String) (origW origH : ℕ) (t : ℚ)
    (hv : resizeValidate ratio = some (.finite t))
    (hw : 1 ≤ origW) (hh : 1 ≤ origH) (ht : 0 < t)
    (htol : ¬ |t - (origW : ℚ) / origH| < 1 / 100) :
    ∃ W H iw ih : ℤ,
      resizeImageToAspectRatio dataUrl ratio origW origH = .ok (.jpeg W H iw ih) ∧
      W ≤ 1024 ∧ H ≤ 1024 ∧
      ∃ a b : ℚ, 0 < b ∧ a / b = t ∧ |(W : ℚ) - a| ≤ 1 ∧ |(H : ℚ) - b| ≤ 1 := by
  obtain ⟨hratio, hcw, hch⟩ := canvas_ratio_exact origW origH t hw hh ht
  have hsc := resizeScale_pos origW origH t hw hh ht
  obtain ⟨hb1, hb2⟩ := canvas_scaled_le origW origH t hw hh ht
  refine ⟨jsRound (canvasWidth t origW origH * resizeScale t origW origH),
    jsRound (canvasHeight t origW origH * resizeScale t origW origH),
    jsRound (origW * resizeScale t origW origH),
    jsRound (origH * resizeScale t origW origH), ?_,
    jsRound_le_of_le _ 1024 (by exact_mod_cast hb1),
    jsRound_le_of_le _ 1024 (by exact_mod_cast hb2),
    canvasWidth t origW origH * resizeScale t origW origH,
    canvasHeight t origW origH * resizeScale t origW origH,
    mul_pos hch hsc, ?_,
    le_trans (jsRound_sub_abs_le _) (by norm_num),
    le_trans (jsRound_sub_abs_le _) (by norm_num)⟩
  · unfold resizeImageToAspectRatio
    rw [hv]
    show Except.ok (resizeBody dataUrl t origW origH) = _
    unfold resizeBody
    rw [if_neg htol]
  · rw [mul_div_mul_right _ _ (ne_of_gt hsc)]
    exact hratio

/-- Witness for C5 at a concrete input: a 100 x 100 source padded to
`"2:1"`. -/
theorem resize_offtolerance_dims_witness :
    ∃ W H iw ih : ℤ,
      resizeImageToAspectRatio "data" "2:1" 100 100 = .ok (.jpeg W H iw ih) ∧
      W ≤ 1024 ∧ H ≤ 1024 ∧
      ∃ a b : ℚ, 0 < b ∧ a / b = 2 ∧ |(W : ℚ) - a| ≤ 1 ∧ |(H : ℚ) - b| ≤ 1 :=
  resize_offtolerance_dims "data" "2:1" 100 100 2
    (by simp [resizeValidate, splitRatio, splitColonAux, jsNumberOfChars,
      digitsVal, JSNum.isNaN, jsDiv])
    (by norm_num) (by norm_num) (by norm_num)
    (by rw [show ((100 : ℕ) : ℚ) / ((100 : ℕ) : ℚ) = 1 by norm_num]; norm_num)

/-! ### Claim C6: exactness and centering of cropImageToAspectRatio -/

/-- C6: for every source image and positive target ratio `t`,
`cropImageToAspectRatio` returns a crop whose dimensions have ratio
exactly `t`, produced by cropping only: the uncropped axis keeps its
original size, the cropped axis removes exactly equal margins from both
sides of the center, and the crop rectangle lies inside the source. -/
theorem crop_exactness (origW origH : ℕ) (t : ℚ)
    (hw : 1 ≤ origW) (hh : 1 ≤ origH) (ht : 0 < t)
    (r : CropResult) (hr : r = cropImageToAspectRatio origW origH t) :
    r.cropWidth / r.cropHeight = t ∧
    (if (origW : ℚ) / origH > t
      then r.cropHeight = origH ∧ r.cropY = 0
      else r.cropWidth = origW ∧ r.cropX = 0) ∧
    (origW : ℚ) - (r.cropX + r.cropWidth) = r.cropX ∧
    (origH : ℚ) - (r.cropY + r.cropHeight) = r.cropY ∧
    0 ≤ r.cropX ∧ 0 ≤ r.cropY ∧
    r.cropX + r.cropWidth ≤ origW ∧ r.cropY + r.cropHeight ≤ origH ∧
    0 < r.cropWidth ∧ 0 < r.cropHeight := by
  subst hr
  have hW : (0 : ℚ) < origW := by exact_mod_cast Nat.lt_of_lt_of_le Nat.zero_lt_one hw
  have hH : (0 : ℚ) < origH := by exact_mod_cast Nat.lt_of_lt_of_le Nat.zero_lt_one hh
  by_cases hgt : (origW : ℚ) / origH > t
  · have e : cropImageToAspectRatio origW origH t =
        { cropWidth := origH * t, cropHeight := origH,
          cropX := ((origW : ℚ) - origH * t) / 2, cropY := 0 } := by
      unfold cropImageToAspectRatio
      rw [if_pos hgt]
    have hlt : (origH : ℚ) * t < origW := by
      have h1 : (origH : ℚ) * t < origH * ((origW : ℚ) / origH) :=
        mul_lt_mul_of_pos_left hgt hH
      have h2 : (origH : ℚ) * ((origW : ℚ) / origH) = origW := by field_simp
      linarith
    rw [e, if_pos hgt]
    refine ⟨?_, ⟨rfl, rfl⟩, by ring, by ring, ?_, le_refl 0, ?_, by simp, ?_, hH⟩
    · field_simp
    · linarith
    · linarith
    · positivity
  · have hle : (origW : ℚ) / origH ≤ t := le_of_not_lt hgt
    have e : cropImageToAspectRatio origW origH t =
        { cropWidth := origW, cropHeight := origW / t,
          cropX := 0, cropY := ((origH : ℚ) - origW / t) / 2 } := by
      unfold cropImageToAspectRatio
      rw [if_neg hgt]
    have hlt : (origW : ℚ) / t ≤ origH := by
      rw [div_le_iff₀ ht]
      calc (origW : ℚ) = origW / origH * origH := by field_simp
        _ ≤ t * origH := by
            exact mul_le_mul_of_nonneg_right hle (le_of_lt hH)
        _ = (origH : ℚ) * t := by ring
    rw [e, if_neg hgt]
    refine ⟨?_, ⟨rfl, rfl⟩, by ring, by ring, le_refl 0, ?_, by simp, ?_, hW, ?_⟩
    · field_simp
    · linarith
    · linarith
    · positivity

/-- Witness for C6 at a concrete input: a 200 x 100 source cropped to a
square. -/
theorem crop_exactness_witness :
    (cropImageToAspectRatio 200 100 1).cropWidth /
      (cropImageToAspectRatio 200 100 1).cropHeight = 1 ∧
    (if (200 : ℚ) / 100 > 1
      then (cropImageToAspectRatio 200 100 1).cropHeight = 100 ∧
        (cropImageToAspectRatio 200 100 1).cropY = 0
      else (cropImageToAspectRatio 200 100 1).cropWidth = 200 ∧
        (cropImageToAspectRatio 200 100 1).cropX = 0) ∧
    (200 : ℚ) - ((cropImageToAspectRatio 200 100 1).cropX +
      (cropImageToAspectRatio 200 100 1).cropWidth) =
      (cropImageToAspectRatio 200 100 1).cropX ∧
    (100 : ℚ) - ((cropImageToAspectRatio 200 100 1).cropY +
      (cropImageToAspectRatio 200 100 1).cropHeight) =
      (cropImageToAspectRatio 200 100 1).cropY ∧
    0 ≤ (cropImageToAspectRatio 200 100 1).cropX ∧
    0 ≤ (cropImageToAspectRatio 200 100 1).cropY ∧
    (cropImageToAspectRatio 200 100 1).cropX +
      (cropImageToAspectRatio 200 100 1).cropWidth ≤ 200 ∧
    (cropImageToAspectRatio 200 100 1).cropY +
      (cropImageToAspectRatio 200 100 1).cropHeight ≤ 100 ∧
    0 < (cropImageToAspectRatio 200 100 1).cropWidth ∧
    0 < (cropImageToAspectRatio 200 100 1).cropHeight := by
  have h := crop_exactness 200 100 1 (by norm_num) (by norm_num) (by norm_num)
    (cropImageToAspectRatio 200 100 1) rfl
  simpa using h

/-! ### Claim C7: the print-sheet grid fits the paper and is centered -/

/-- C7: for every paper, cell and padding combination for which the grid
layout of `createPrintSheet` computes at least one column and one row, the
total grid extent never exceeds the paper dimensions and the grid is
centered: the left margin equals the right margin and the top margin
equals the bottom margin, exactly in the rational model. -/
theorem print_grid_fits_and_centered (paperW paperH cellW cellH pad : ℚ)
    (hcw : 0 < cellW) (hch : 0 < cellH) (hp : 0 ≤ pad)
    (hc : 1 ≤ (printGridLayout paperW paperH cellW cellH pad).cols)
    (hr : 1 ≤ (printGridLayout paperW paperH cellW cellH pad).rows) :
    let L := printGridLayout paperW paperH cellW cellH pad
    L.totalGridWidth ≤ paperW ∧ L.totalGridHeight ≤ paperH ∧
    0 ≤ L.startX ∧ 0 ≤ L.startY ∧
    paperW - (L.startX + L.totalGridWidth) = L.startX ∧
    paperH - (L.startY + L.totalGridHeight) = L.startY := by
  intro L
  have hLc : L.cols = ⌊(paperW - pad) / (cellW + pad)⌋ := rfl
  have hLr : L.rows = ⌊(paperH - pad) / (cellH + pad)⌋ := rfl
  have hLw : L.totalGridWidth = L.cols * cellW + (L.cols - 1) * pad := rfl
  have hLh : L.totalGridHeight = L.rows * cellH + (L.rows - 1) * pad := rfl
  have hLx : L.startX = (paperW - L.totalGridWidth) / 2 := rfl
  have hLy : L.startY = (paperH - L.totalGridHeight) / 2 := rfl
  have hwp : (0 : ℚ) < cellW + pad := by linarith
  have hhp : (0 : ℚ) < cellH + pad := by linarith
  have hcq : (L.cols : ℚ) * (cellW + pad) ≤ paperW - pad := by
    have h1 : ((L.cols : ℤ) : ℚ) ≤ (paperW - pad) / (cellW + pad) := by
      rw [hLc]; exact Int.floor_le _
    rwa [← le_div_iff₀ hwp]
  have hrq : (L.rows : ℚ) * (cellH + pad) ≤ paperH - pad := by
    have h1 : ((L.rows : ℤ) : ℚ) ≤ (paperH - pad) / (cellH + pad) := by
      rw [hLr]; exact Int.floor_le _
    rwa [← le_div_iff₀ hhp]
  have hgw : L.totalGridWidth ≤ paperW := by
    rw [hLw]
    have : ((L.cols : ℤ) : ℚ) * cellW + ((L.cols : ℤ) : ℚ) * pad ≤ paperW - pad := by
      have := hcq; nlinarith
    nlinarith [hp]
  have hgh : L.totalGridHeight ≤ paperH := by
    rw [hLh]
    have : ((L.rows : ℤ) : ℚ) * cellH + ((L.rows : ℤ) : ℚ) * pad ≤ paperH - pad := by
      have := hrq; nlinarith
    nlinarith [hp]
  refine ⟨hgw, hgh, ?_, ?_, ?_, ?_⟩
  · rw [hLx]; linarith
  · rw [hLy]; linarith
  · rw [hLx]; ring
  · rw [hLy]; ring

/-- Witness for C7 at a concrete input: 1200 x 1800 paper, 350 x 500
cells, padding 10, giving a 3 x 3 grid. -/
theorem print_grid_fits_and_centered_witness :
    let L := printGridLayout 1200 1800 350 500 10
    (1 : ℤ) ≤ L.cols ∧ (1 : ℤ) ≤ L.rows ∧
    L.totalGridWidth ≤ 1200 ∧ L.totalGridHeight ≤ 1800 ∧
    0 ≤ L.startX ∧ 0 ≤ L.startY ∧
    1200 - (L.startX + L.totalGridWidth) = L.startX ∧
    1800 - (L.startY + L.totalGridHeight) = L.startY := by
  have hc : (printGridLayout 1200 1800 350 500 10).cols = 3 := by
    show ⌊(1200 - 10 : ℚ) / (350 + 10)⌋ = 3
    rw [Int.floor_eq_iff]
    norm_num
  have hr : (printGridLayout 1200 1800 350 500 10).rows = 3 := by
    show ⌊(1800 - 10 : ℚ) / (500 + 10)⌋ = 3
    rw [Int.floor_eq_iff]
    norm_num
  have h := print_grid_fits_and_centered 1200 1800 350 500 10 (by norm_num)
    (by norm_num) (by norm_num) (by rw [hc]; norm_num) (by rw [hr]; norm_num)
  exact ⟨by rw [hc]; norm_num, by rw [hr]; norm_num, h⟩

/-! ### Claim C8: capacity failure of createPrintSheet

The source fills the canvas with its white background (line 51 of
src/unnamed/part_008) and decodes the portrait image *before* computing
the grid and checking `cols === 0 || rows === 0`, so the capacity error is
not raised before any drawing occurs on the output canvas — it is raised
before any portrait tile is drawn. -/

theorem printSheetLayout_20_cols_zero : (printSheetLayout 20 20).cols = 0 := by
  show ⌊((4 * 300 : ℚ) - sheetPadding) / (cmToPx 20 + sheetPadding)⌋ = 0
  rw [show ((4 * 300 : ℚ) - sheetPadding) / (cmToPx 20 + sheetPadding) = 503 / 1005 by
    norm_num [sheetPadding, cmToPx]]
  rw [Int.floor_eq_iff]
  norm_num

/-- C8 counterexample: for the 20 x 20 cm cell (larger than the 4 x 6 inch
paper in both dimensions) `createPrintSheet` does fail with the capacity
error, but the white background fill has already been drawn on the output
canvas when the error is raised, so the error is *not* raised before any
drawing occurs. -/
theorem print_sheet_error_after_drawing :
    (createPrintSheet 20 20).2 =
      .error "Portrait size is too large to fit on a 4x6 inch paper." ∧
    (createPrintSheet 20 20).1 = [DrawOp.fillBackground] ∧
    (createPrintSheet 20 20).1 ≠ [] := by
  have e : createPrintSheet 20 20 =
      ([.fillBackground], .error "Portrait size is too large to fit on a 4x6 inch paper.") := by
    unfold createPrintSheet
    rw [if_pos (Or.inl printSheetLayout_20_cols_zero)]
  rw [e]
  exact ⟨rfl, rfl, by simp⟩

/-- C8 (amended): for every cell size whose computed grid has zero columns
or zero rows, `createPrintSheet` fails with the capacity error rather than
producing an empty or clipped sheet, and the error is raised before any
portrait tile is drawn — though after the initial white background fill of
the output canvas. -/
theorem print_sheet_capacity_error (wcm hcm : ℚ)
    (hzero : (printSheetLayout wcm hcm).cols = 0 ∨
      (printSheetLayout wcm hcm).rows = 0) :
    (createPrintSheet wcm hcm).2 =
      .error "Portrait size is too large to fit on a 4x6 inch paper." ∧
    (createPrintSheet wcm hcm).1 = [DrawOp.fillBackground] ∧
    ∀ row col x y, DrawOp.drawTile row col x y ∉ (createPrintSheet wcm hcm).1 := by
  unfold createPrintSheet
  rw [if_pos hzero]
  refine ⟨rfl, rfl, ?_⟩
  intro row col x y
  simp

/-- Witness for the amended C8 at the concrete 20 x 20 cm cell. -/
theorem print_sheet_capacity_error_witness :
    (createPrintSheet 20 20).2 =
      .error "Portrait size is too large to fit on a 4x6 inch paper." ∧
    (createPrintSheet 20 20).1 = [DrawOp.fillBackground] ∧
    ∀ row col x y, DrawOp.drawTile row col x y ∉ (createPrintSheet 20 20).1 :=
  print_sheet_capacity_error 20 20 (Or.inl printSheetLayout_20_cols_zero)

/-! ### The batch-runner invariant -/

theorem applyOutcome_ne_pending (o : Except String String) :
    applyOutcome o ≠ .pending := by
  cases o <;> simp [applyOutcome]

/-- Invariant of the batch run: the worker list keeps its size; ids outside
the submitted list have no map entry; every submitted job is `pending` or
settled according to its own outcome; queue and awaited jobs come from the
submitted list; a `pending` job is in the queue or awaited by some worker;
and once any worker has exited, the queue is empty. -/
structure RunnerInv (outcome : String → Except String String)
    (ids : List String) (c : ℕ) (s : RunnerState) : Prop where
  workerCount : s.workers.length = c
  outside : ∀ id, id ∉ ids → s.images id = none
  tracked : ∀ id ∈ ids,
    s.images id = some .pending ∨ s.images id = some (applyOutcome (outcome id))
  queueSub : ∀ id ∈ s.queue, id ∈ ids
  awaitedSub : ∀ (i : ℕ) (id : String),
    s.workers[i]? = some (.awaiting id) → id ∈ ids
  pendingLoc : ∀ id, s.images id = some .pending →
    id ∈ s.queue ∨ ∃ i : ℕ, s.workers[i]? = some (.awaiting id)
  exitedEmpty : (∃ i : ℕ, s.workers[i]? = some .exited) → s.queue = []

theorem runnerInv_init (outcome : String → Except String String)
    (ids : List String) (c : ℕ) :
    RunnerInv outcome ids c (initRunner ids c) := by
  constructor
  · simp [initRunner]
  · intro id hid
    simp [initRunner, hid]
  · intro id hid
    left
    simp [initRunner, hid]
  · intro id hid
    exact hid
  · intro i id h
    rw [show (initRunner ids c).workers = List.replicate c .looping from rfl,
      List.getElem?_replicate] at h
    split at h <;> simp_all
  · intro id h
    left
    by_cases hid : id ∈ ids
    · exact hid
    · simp [initRunner, hid] at h
  · rintro ⟨i, h⟩
    rw [show (initRunner ids c).workers = List.replicate c .looping from rfl,
      List.getElem?_replicate] at h
    split at h <;> simp_all

theorem runnerInv_step {outcome : String → Except String String}
    {ids : List String} {c : ℕ} {s s' : RunnerState}
    (hinv : RunnerInv outcome ids c s) (hstep : RunnerStep outcome s s') :
    RunnerInv outcome ids c s' := by
  cases hstep with
  | start i id rest hw hq =>
    obtain ⟨hlt, -⟩ := List.getElem?_eq_some.mp hw
    have hidids : id ∈ ids := hinv.queueSub id (by rw [hq]; exact List.mem_cons_self id rest)
    constructor
    · simpa using hinv.workerCount
    · exact hinv.outside
    · exact hinv.tracked
    · intro x hx
      exact hinv.queueSub x (by rw [hq]; exact List.mem_cons_of_mem id hx)
    · intro i' id' h'
      by_cases hii : i = i'
      · subst hii
        rw [List.getElem?_set_self hlt] at h'
        obtain rfl : id = id' := by simpa using h'
        exact hidids
      · rw [List.getElem?_set_ne hii] at h'
        exact hinv.awaitedSub i' id' h'
    · intro x hx
      rcases hinv.pendingLoc x hx with hqx | ⟨i', hi'⟩
      · rw [hq] at hqx
        rcases List.mem_cons.mp hqx with rfl | hrest
        · right
          exact ⟨i, by rw [List.getElem?_set_self hlt]⟩
        · left
          exact hrest
      · right
        refine ⟨i', ?_⟩
        have hne : i ≠ i' := by
          intro e
          subst e
          rw [hw] at hi'
          simp at hi'
        rw [List.getElem?_set_ne hne]
        exact hi'
    · rintro ⟨i', hi'⟩
      exfalso
      by_cases hii : i = i'
      · subst hii
        rw [List.getElem?_set_self hlt] at hi'
        simp at hi'
      · rw [List.getElem?_set_ne hii] at hi'
        have := hinv.exitedEmpty ⟨i', hi'⟩
        rw [this] at hq
        exact List.noConfusion hq
  | finish i id hw =>
    obtain ⟨hlt, -⟩ := List.getElem?_eq_some.mp hw
    have hidids : id ∈ ids := hinv.awaitedSub i id hw
    constructor
    · simpa using hinv.workerCount
    · intro x hx
      have hne : x ≠ id := fun e => hx (e ▸ hidids)
      show setImage s.images id (applyOutcome (outcome id)) x = none
      rw [setImage, if_neg hne]
      exact hinv.outside x hx
    · intro x hx
      by_cases hxid : x = id
      · subst hxid
        right
        show setImage s.images x (applyOutcome (outcome x)) x = _
        rw [setImage, if_pos rfl]
      · show setImage s.images id (applyOutcome (outcome id)) x = _ ∨
          setImage s.images id (applyOutcome (outcome id)) x = _
        rw [setImage, if_neg hxid]
        exact hinv.tracked x hx
    · exact hinv.queueSub
    · intro i' id' h'
      by_cases hii : i = i'
      · subst hii
        rw [List.getElem?_set_self hlt] at h'
        simp at h'
      · rw [List.getElem?_set_ne hii] at h'
        exact hinv.awaitedSub i' id' h'
    · intro x hx
      replace hx : setImage s.images id (applyOutcome (outcome id)) x = some .pending := hx
      by_cases hxid : x = id
      · subst hxid
        rw [setImage, if_pos rfl] at hx
        exact absurd (Option.some.inj hx) (applyOutcome_ne_pending _)
      · rw [setImage, if_neg hxid] at hx
        rcases hinv.pendingLoc x hx with hqx | ⟨i', hi'⟩
        · left
          exact hqx
        · right
          refine ⟨i', ?_⟩
          have hne : i ≠ i' := by
            intro e
            subst e
            rw [hw] at hi'
            exact hxid (by simpa using (Option.some.inj hi').symm)
          rw [List.getElem?_set_ne hne]
          exact hi'
    · rintro ⟨i', hi'⟩
      by_cases hii : i = i'
      · subst hii
        rw [List.getElem?_set_self hlt] at hi'
        simp at hi'
      · rw [List.getElem?_set_ne hii] at hi'
        exact hinv.exitedEmpty ⟨i', hi'⟩
  | exitLoop i hw hq =>
    obtain ⟨hlt, -⟩ := List.getElem?_eq_some.mp hw
    constructor
    · simpa using hinv.workerCount
    · exact hinv.outside
    · exact hinv.tracked
    · intro x hx
      exact absurd hx (List.not_mem_nil x)
    · intro i' id' h'
      by_cases hii : i = i'
      · subst hii
        rw [List.getElem?_set_self hlt] at h'
        simp at h'
      · rw [List.getElem?_set_ne hii] at h'
        exact hinv.awaitedSub i' id' h'
    · intro x hx
      rcases hinv.pendingLoc x hx with hqx | ⟨i', hi'⟩
      · rw [hq] at hqx
        exact absurd hqx (List.not_mem_nil x)
      · right
        refine ⟨i', ?_⟩
        have hne : i ≠ i' := by
          intro e
          subst e
          rw [hw] at hi'
          simp at hi'
        rw [List.getElem?_set_ne hne]
        exact hi'
    · intro _
      rfl

theorem runnerInv_reachable {outcome : String → Except String String}
    {ids : List String} {c : ℕ} {s : RunnerState}
    (h : Reachable outcome ids c s) : RunnerInv outcome ids c s := by
  induction h with
  | refl => exact runnerInv_init outcome ids c
  | tail _ hstep ih => exact runnerInv_step ih hstep

/-- At completion of a run with at least one worker, every submitted job's
map entry is exactly the image of its own outcome. -/
theorem completed_images_determined {outcome : String → Except String String}
    {ids : List String} {c : ℕ} {s : RunnerState}
    (hc : 1 ≤ c) (hreach : Reachable outcome ids c s) (hdone : Completed s) :
    ∀ id ∈ ids, s.images id = some (applyOutcome (outcome id)) := by
  have hinv := runnerInv_reachable hreach
  have hq : s.queue = [] := by
    have hlen : 0 < s.workers.length := by rw [hinv.workerCount]; omega
    have hw0 : s.workers[0]? = some s.workers[0] := List.getElem?_eq_getElem hlen
    have hex := hdone 0 _ hw0
    exact hinv.exitedEmpty ⟨0, by rw [hw0, hex]⟩
  intro id hid
  rcases hinv.tracked id hid with hp | hterm
  · exfalso
    rcases hinv.pendingLoc id hp with hqx | ⟨i, hi⟩
    · rw [hq] at hqx
      exact List.not_mem_nil id hqx
    · have := hdone i _ hi
      simp at this
  · exact hterm

/-! ### Claim C1: completion accounting of the batch runner -/

/-- C1: for every list of submitted jobs and concurrency limit `c` with
`1 ≤ c ≤ N`, when the batch run completes (all spawned workers have exited
their loop) every submitted job is in exactly one terminal state — `done`
or `error`, never both, never still `pending` — and the number of jobs in
a terminal state equals the number of submitted jobs. -/
theorem batch_completion_accounting (outcome : String → Except String String)
    (ids : List String) (c : ℕ) (s : RunnerState)
    (hc : 1 ≤ c) (hcn : c ≤ ids.length)
    (hreach : Reachable outcome ids c s) (hdone : Completed s) :
    (∀ id ∈ ids,
      ((∃ url, s.images id = some (.done url)) ∨
        (∃ msg, s.images id = some (.error msg))) ∧
      ¬ ((∃ url, s.images id = some (.done url)) ∧
        (∃ msg, s.images id = some (.error msg))) ∧
      s.images id ≠ some .pending) ∧
    (ids.filter
      (fun id => ((s.images id).map JobState.isTerminal).getD false)).length =
      ids.length := by
  have hmain := completed_images_determined hc hreach hdone
  constructor
  · intro id hid
    have h := hmain id hid
    refine ⟨?_, ?_, ?_⟩
    · cases ho : outcome id with
      | ok url => exact Or.inl ⟨url, by rw [h, ho]; rfl⟩
      | error msg => exact Or.inr ⟨msg, by rw [h, ho]; rfl⟩
    · rintro ⟨⟨u, hu⟩, ⟨m, hm⟩⟩
      rw [hu] at hm
      simp at hm
    · rw [h]
      intro he
      exact applyOutcome_ne_pending (outcome id) (Option.some.inj he)
  · have : ids.filter
        (fun id => ((s.images id).map JobState.isTerminal).getD false) = ids := by
      rw [List.filter_eq_self]
      intro id hid
      rw [hmain id hid]
      cases outcome id <;> simp [applyOutcome, JobState.isTerminal]
    rw [this]

/-! ### Claim C2: per-job failure isolation of the batch runner -/

/-- C2: for every batch, each job's failure is caught locally and recorded
as that job's `error` state with the message, and at completion every
job's terminal state is exactly the image of its own outcome — a rejecting
job becomes `error` with its message, a resolving job becomes `done` with
its url — so one job's failure never aborts the worker loop or changes a
sibling job's outcome. -/
theorem batch_failure_isolation (outcome : String → Except String String)
    (ids : List String) (c : ℕ) (s : RunnerState)
    (hc : 1 ≤ c) (hreach : Reachable outcome ids c s) (hdone : Completed s) :
    (∀ id ∈ ids, s.images id = some (applyOutcome (outcome id))) ∧
    (∀ id ∈ ids, ∀ msg, outcome id = .error msg →
      s.images id = some (.error msg)) ∧
    (∀ id ∈ ids, ∀ url, outcome id = .ok url →
      s.images id = some (.done url)) := by
  have hmain := completed_images_determined hc hreach hdone
  refine ⟨hmain, ?_, ?_⟩
  · intro id hid msg hmsg
    rw [hmain id hid, hmsg]
    rfl
  · intro id hid url hurl
    rw [hmain id hid, hurl]
    rfl

/-! ### Claim C3: the in-flight bound of the batch runner -/

/-- C3: in every state a batch run with concurrency limit `c` can reach,
at most `c` work functions are in flight (started but not yet settled):
each worker awaits its current item's completion before popping the next
queue item, so the awaited jobs never outnumber the `c` spawned workers. -/
theorem batch_bounded_concurrency (outcome : String → Except String String)
    (ids : List String) (c : ℕ) (s : RunnerState)
    (hreach : Reachable outcome ids c s) : inFlight s ≤ c := by
  have hinv := runnerInv_reachable hreach
  calc inFlight s ≤ s.workers.length := List.length_filterMap_le _ _
    _ = c := hinv.workerCount

/-! ### Claim C9: the retry transition -/

/-- C9: invoking retry on a job whose entry is in a terminal state first
moves that job to `pending` and then, when the single ad hoc re-execution
settles, to the terminal state given by the new outcome, while the map
entries of all other jobs are left unchanged by both updates. -/
theorem retry_transition (images : String → Option JobState) (photoId : String)
    (outcome : Except String String) (st : JobState)
    (hcur : images photoId = some st) (hterm : st.isTerminal = true) :
    ∃ g1 g2, handleRegeneratePhoto images photoId outcome = [g1, g2] ∧
      g1 photoId = some .pending ∧
      g2 photoId = some (applyOutcome outcome) ∧
      (applyOutcome outcome).isTerminal = true ∧
      ∀ id, id ≠ photoId → g1 id = images id ∧ g2 id = images id := by
  refine ⟨setImage images photoId .pending,
    setImage (setImage images photoId .pending) photoId (applyOutcome outcome),
    ?_, ?_, ?_, ?_, ?_⟩
  · unfold handleRegeneratePhoto
    rw [hcur]
    cases st with
    | pending => simp [JobState.isTerminal] at hterm
    | done url => rfl
    | error msg => rfl
  · rw [setImage, if_pos rfl]
  · rw [setImage, if_pos rfl]
  · cases outcome <;> rfl
  · intro id hne
    constructor
    · rw [setImage, if_neg hne]
    · rw [setImage, if_neg hne, setImage, if_neg hne]

/-- Witness for C9: retrying a failed job with a succeeding re-execution,
in a map that also holds an unrelated done job. -/
theorem retry_transition_witness :
    ∃ g1 g2,
      handleRegeneratePhoto
        (fun k => if k = "a" then some (.error "boom")
          else if k = "b" then some (.done "kept") else none)
        "a" (.ok "fresh") = [g1, g2] ∧
      g1 "a" = some .pending ∧
      g2 "a" = some (applyOutcome (.ok "fresh")) ∧
      (applyOutcome (Except.ok "fresh")).isTerminal = true ∧
      ∀ id, id ≠ "a" →
        g1 id = (fun k => if k = "a" then some (.error "boom")
          else if k = "b" then some (.done "kept") else none) id ∧
        g2 id = (fun k => if k = "a" then some (.error "boom")
          else if k = "b" then some (.done "kept") else none) id :=
  retry_transition _ "a" (.ok "fresh") (.error "boom") (by simp) rfl

/-! ### A concrete batch run (used by the witnesses of C1, C2 and C3)

Three jobs, concurrency limit 2, job `"b"` always failing — the example
scenario of the specification scaled to three jobs. -/

def exIds : List String := ["a", "b", "c"]

def exOutcome : String → Except String String :=
  fun id => if id = "b" then .error "boom" else .ok "fine"

def exImages0 : String → Option JobState := (initRunner exIds 2).images

def exImages1 : String → Option JobState :=
  setImage exImages0 "a" (applyOutcome (exOutcome "a"))

def exImages2 : String → Option JobState :=
  setImage exImages1 "b" (applyOutcome (exOutcome "b"))

def exImages3 : String → Option JobState :=
  setImage exImages2 "c" (applyOutcome (exOutcome "c"))

def exS1 : RunnerState := ⟨["b", "c"], exImages0, [.awaiting "a", .looping]⟩

def exS2 : RunnerState := ⟨["c"], exImages0, [.awaiting "a", .awaiting "b"]⟩

def exS3 : RunnerState := ⟨["c"], exImages1, [.looping, .awaiting "b"]⟩

def exS4 : RunnerState := ⟨[], exImages1, [.awaiting "c", .awaiting "b"]⟩

def exS5 : RunnerState := ⟨[], exImages2, [.awaiting "c", .looping]⟩

def exS6 : RunnerState := ⟨[], exImages3, [.looping, .looping]⟩

def exS7 : RunnerState := ⟨[], exImages3, [.exited, .looping]⟩

def exS8 : RunnerState := ⟨[], exImages3, [.exited, .exited]⟩

theorem exReachMid : Reachable exOutcome exIds 2 exS2 := by
  have h1 : RunnerStep exOutcome (initRunner exIds 2) exS1 :=
    RunnerStep.start (initRunner exIds 2) 0 "a" ["b", "c"] rfl rfl
  have h2 : RunnerStep exOutcome exS1 exS2 :=
    RunnerStep.start exS1 1 "b" ["c"] rfl rfl
  exact (Relation.ReflTransGen.refl.tail h1).tail h2

theorem exReachFinal : Reachable exOutcome exIds 2 exS8 := by
  have h3 : RunnerStep exOutcome exS2 exS3 := RunnerStep.finish exS2 0 "a" rfl
  have h4 : RunnerStep exOutcome exS3 exS4 :=
    RunnerStep.start exS3 0 "c" [] rfl rfl
  have h5 : RunnerStep exOutcome exS4 exS5 := RunnerStep.finish exS4 1 "b" rfl
  have h6 : RunnerStep exOutcome exS5 exS6 := RunnerStep.finish exS5 0 "c" rfl
  have h7 : RunnerStep exOutcome exS6 exS7 := RunnerStep.exitLoop exS6 0 rfl rfl
  have h8 : RunnerStep exOutcome exS7 exS8 := RunnerStep.exitLoop exS7 1 rfl rfl
  exact ((((exReachMid.tail h3).tail h4).tail h5).tail h6).tail h7 |>.tail h8

theorem exCompleted : Completed exS8 := by
  intro i w h
  match i with
  | 0 => exact (Option.some.inj h).symm
  | 1 => exact (Option.some.inj h).symm
  | n + 2 => exact Option.noConfusion h

/-- Witness for C1: in the completed example run all three jobs are
terminal and the terminal count is 3. -/
theorem batch_completion_accounting_witness :
    ((∃ url, exS8.images "a" = some (.done url)) ∨
      (∃ msg, exS8.images "a" = some (.error msg))) ∧
    ((∃ url, exS8.images "b" = some (.done url)) ∨
      (∃ msg, exS8.images "b" = some (.error msg))) ∧
    ((∃ url, exS8.images "c" = some (.done url)) ∨
      (∃ msg, exS8.images "c" = some (.error msg))) ∧
    (exIds.filter
      (fun id => ((exS8.images id).map JobState.isTerminal).getD false)).length =
      3 := by
  have h := batch_completion_accounting exOutcome exIds 2 exS8 (by norm_num)
    (by simp [exIds]) exReachFinal exCompleted
  refine ⟨(h.1 "a" (by simp [exIds])).1, (h.1 "b" (by simp [exIds])).1,
    (h.1 "c" (by simp [exIds])).1, ?_⟩
  rw [h.2]
  rfl

/-- Witness for C2: in the completed example run the failing job `"b"` is
recorded as `error` with its message while both siblings are `done`. -/
theorem batch_failure_isolation_witness :
    exS8.images "b" = some (.error "boom") ∧
    exS8.images "a" = some (.done "fine") ∧
    exS8.images "c" = some (.done "fine") := by
  have h := batch_failure_isolation exOutcome exIds 2 exS8 (by norm_num)
    exReachFinal exCompleted
  exact ⟨h.2.1 "b" (by simp [exIds]) "boom" rfl,
    h.2.2 "a" (by simp [exIds]) "fine" rfl,
    h.2.2 "c" (by simp [exIds]) "fine" rfl⟩

/-- Witness for C3: midway through the example run both workers are in
flight and the bound 2 holds with equality. -/
theorem batch_bounded_concurrency_witness :
    inFlight exS2 = 2 ∧ inFlight exS2 ≤ 2 :=
  ⟨rfl, batch_bounded_concurrency exOutcome exIds 2 exS2 exReachMid⟩

end CreativeSuite
